import Mathlib

/-!
Verification of the ASCM denoising example workflow
(`doc/examples/denoise_ascm.py`).

The repository fragment is a single straight-line script: it loads a 4D
image, derives a foreground mask by thresholding channel 0, selects channel 1
as the processed volume, estimates the noise standard deviation, runs the
non-local-means denoiser twice (small and large patch radius), fuses the two
results with ASCM, plots a residual figure, persists the fused volume with
the original affine, and plots a comparison figure.

The script body is embedded below as a pure pipeline `runScript`,
parameterized by the external denoiser `nlm` (its internals are outside this
fragment, so theorems quantify over it).  The noise estimator
`estimate_sigma` and the fusion engine `ascm` are also external library code
not present in this fragment; they are modelled from the specification where
a claim needs their behaviour (see the doc comments on `sigmaVol`, `ascm`).
Intensities are rationals; a volume is a total function on integer voxel
coordinates, with the declared extent carried alongside where an aggregate
over the volume is taken.
-/

/-- A 3D scalar volume: an intensity sample at each integer voxel
coordinate.  Coordinates outside the declared extent of an image are never
read by the pipeline's aggregates. -/
def Vol : Type := Nat → Nat → Nat → ℚ

/-- A boolean foreground mask over voxel coordinates. -/
def Mask3 : Type := Nat → Nat → Nat → Bool

/-- The loaded 4D image together with its spatial transform:
`data = img.get_data()` (extent `nx × ny × nz × nc`) and
`affine = img.get_affine()` (opaque to the pipeline, carried for
persistence). -/
structure Image4 where
  nx : Nat
  ny : Nat
  nz : Nat
  nc : Nat
  val : Nat → Nat → Nat → Nat → ℚ
  affine : Nat → Nat → ℚ

/-- `mask = data[..., 0] > 80` (line 31): strict threshold on channel 0. -/
def mask_of (img : Image4) : Mask3 :=
  fun x y z => decide (img.val x y z 0 > 80)

/-- `data = data[..., 1]` (line 32): the processed volume is channel 1. -/
def data_of (img : Image4) : Vol :=
  fun x y z => img.val x y z 1

/-- All in-extent samples of a volume, in raster order. -/
def voxList (nx ny nz : Nat) (v : Vol) : List ℚ :=
  (List.range nx).flatMap fun x =>
    (List.range ny).flatMap fun y =>
      (List.range nz).map fun z => v x y z

/-- Mean of a list of rationals (0 for the empty list, since `q / 0 = 0`). -/
def listMean (l : List ℚ) : ℚ := l.sum / l.length

/-- Modelled from the spec: the noise estimator (`estimate_sigma` of
`dipy.denoise.noise_estimate`) is external library code not in this
fragment.  §4.1 fixes only its interface: input a volume and a coil-count
parameter `N`, output a non-negative noise standard-deviation estimate; no
mask is part of the interface.  The per-volume estimate is modelled as the
mean squared deviation of the volume's samples from their mean, a
variance-style global noise statistic over all voxels of the volume; the
exact formula (and how the coil count enters it) is external-library detail
the spec leaves open. -/
def sigmaVol (nx ny nz : Nat) (v : Vol) (N : Nat) : ℚ :=
  let l := voxList nx ny nz v
  let m := listMean l
  listMean (l.map fun a => (a - m) ^ 2)

/-- Modelled from the spec: `estimate_sigma(data, N=4)` returns a
per-channel array of estimates; the processed volume is a single 3D channel,
so the returned array holds the one estimate for that volume. -/
def estimate_sigma (nx ny nz : Nat) (v : Vol) (N : Nat) : List ℚ :=
  [sigmaVol nx ny nz v N]

/-- The argument record of one `non_local_means` invocation.  The denoiser
itself is external; the script fixes these six arguments at each call
(lines 53-59 and 66-72). -/
structure NlmArgs where
  data : Vol
  sigma : List ℚ
  mask : Mask3
  patch_radius : Nat
  block_radius : Nat
  rician : Bool

/-- A shape-carrying volume, as handed to the fusion engine. -/
structure AVol where
  shape : Nat × Nat × Nat
  val : Nat → Nat → Nat → ℚ

/-- Failure conditions of the fusion engine (§7). -/
inductive AscmError where
  | ShapeMismatch
  | InvalidParameter
  deriving DecidableEq

/-- Modelled from the spec: the per-voxel blending weight of the fusion
engine (§4.3).  The exact soft-coefficient-matching formula is external
library detail (§9 leaves it open); the model takes a similarity weight in
[0, 1) driven toward 1 where the two denoised estimates disagree (local
structure, favour the sharp estimate) and toward 0 where they agree
(homogeneity, favour the smooth estimate), with larger `h` biasing the
weight toward the smoother estimate. -/
def ascmWeight (S L : AVol) (h : ℚ) (x y z : Nat) : ℚ :=
  let d := (S.val x y z - L.val x y z) ^ 2
  d / (d + h ^ 2 + 1)

/-- Modelled from the spec (§4.3, §7): the fusion engine `ascm`
(`dipy.denoise.ascm`) is external library code not in this fragment.  It
fails with ShapeMismatch when `S` or `L` does not match `O`'s shape, fails
with InvalidParameter when the smoothing parameter is negative, and
otherwise blends the two denoised inputs voxel-wise,
`F[v] = w[v]*S[v] + (1-w[v])*L[v]`. -/
def ascm (O S L : AVol) (h : ℚ) : Except AscmError AVol :=
  if S.shape ≠ O.shape ∨ L.shape ≠ O.shape then .error .ShapeMismatch
  else if h < 0 then .error .InvalidParameter
  else .ok ⟨O.shape, fun x y z =>
    ascmWeight S L h x y z * S.val x y z +
      (1 - ascmWeight S L h x y z) * L.val x y z⟩

/-- The pipeline stages named by §4.4. -/
inductive Stage where
  | fetchLoad
  | maskDerivation
  | sigmaEstimation
  | denoiseSmall
  | denoiseLarge
  | fusion
  | timingLogging
  | visualization
  | persistence
  deriving DecidableEq

/-- The data items flowing between stages. -/
inductive Res where
  | rawData
  | affineR
  | maskR
  | dataR
  | sigmaR
  | denSmallR
  | denLargeR
  | denFinalR
  deriving DecidableEq

/-- The data items each stage produces, read off the script. -/
def produces : Stage → List Res
  | .fetchLoad => [.rawData, .affineR]
  | .maskDerivation => [.maskR, .dataR]
  | .sigmaEstimation => [.sigmaR]
  | .denoiseSmall => [.denSmallR]
  | .denoiseLarge => [.denLargeR]
  | .fusion => [.denFinalR]
  | .timingLogging => []
  | .visualization => []
  | .persistence => []

/-- The data items each stage reads, read off the script (the visualization
stage covers both figures, so it lists everything either figure displays). -/
def consumes : Stage → List Res
  | .fetchLoad => []
  | .maskDerivation => [.rawData]
  | .sigmaEstimation => [.dataR]
  | .denoiseSmall => [.dataR, .sigmaR, .maskR]
  | .denoiseLarge => [.dataR, .sigmaR, .maskR]
  | .fusion => [.dataR, .denSmallR, .denLargeR, .sigmaR]
  | .timingLogging => []
  | .visualization => [.dataR, .maskR, .denSmallR, .denLargeR, .denFinalR]
  | .persistence => [.denFinalR, .affineR]

/-- The event trace of the script, one event per executed stage, in source
order: fetch and load (lines 25-29), mask derivation and channel selection
(lines 31-32), sigma estimation (line 46), the small-patch denoiser call
(line 53), the large-patch denoiser call (line 66), fusion (line 81), the
total-time report (line 83), the residual figure (lines 89-105), `nib.save`
(line 117), and the final comparison figure (lines 130-147). -/
def scriptTrace : List Stage :=
  [.fetchLoad, .maskDerivation, .sigmaEstimation, .denoiseSmall,
   .denoiseLarge, .fusion, .timingLogging, .visualization, .persistence,
   .visualization]

/-- Position of each stage in the fixed order claimed by §4.4; the two
denoiser calls share a rank (they are interchangeable). -/
def stageRank : Stage → Nat
  | .fetchLoad => 0
  | .maskDerivation => 1
  | .sigmaEstimation => 2
  | .denoiseSmall => 3
  | .denoiseLarge => 3
  | .fusion => 4
  | .timingLogging => 5
  | .visualization => 6
  | .persistence => 7

/-- Dataflow check: scanning a trace left to right with the accumulated list
of already-produced items, every item a stage consumes must have been
produced by an earlier event. -/
def flowOK : List Res → List Stage → Bool
  | _, [] => true
  | avail, s :: rest =>
    (consumes s).all (fun r => decide (r ∈ avail)) &&
      flowOK (avail ++ produces s) rest

/-- Every value the script computes in one run, together with the argument
records of the external denoiser calls (in invocation order) and the
smoothing parameter handed to the fusion call. -/
structure ScriptRun where
  mask : Mask3
  data : Vol
  sigma : List ℚ
  denCalls : List NlmArgs
  den_small : Vol
  den_large : Vol
  fusionH : ℚ
  den_final : Vol
  axial_middle : Nat
  original : Nat → Nat → ℚ
  final_output : Nat → Nat → ℚ
  difference : Nat → Nat → ℚ
  savedVol : Vol
  savedAffine : Nat → Nat → ℚ

/-- Shallow embedding of the script body, parameterized by the external
denoiser `nlm` and the loaded image.  Line by line:
`mask = data[..., 0] > 80`; `data = data[..., 1]`;
`sigma = estimate_sigma(data, N=4)`;
`den_small = non_local_means(data, sigma=sigma, mask=mask, patch_radius=1,
block_radius=1, rician=True)`;
`den_large = non_local_means(data, sigma=sigma, mask=mask, patch_radius=2,
block_radius=1, rician=True)`;
`den_final = np.array(ascm(data, den_small, den_large, sigma[0]))`;
`axial_middle = data.shape[2] / 2` (integer division);
`original = data[:, :, axial_middle].T`;
`final_output = den_final[:, :, axial_middle].T`;
`difference = np.abs(final_output.astype(f8) - original.astype(f8))`;
`difference[~mask[:, :, axial_middle].T] = 0`;
`nib.save(nib.Nifti1Image(den_final, affine), ...)`. -/
def runScript (nlm : NlmArgs → Vol) (img : Image4) : ScriptRun :=
  let mask := mask_of img
  let data := data_of img
  let sigma := estimate_sigma img.nx img.ny img.nz data 4
  let smallArgs : NlmArgs := ⟨data, sigma, mask, 1, 1, true⟩
  let den_small := nlm smallArgs
  let largeArgs : NlmArgs := ⟨data, sigma, mask, 2, 1, true⟩
  let den_large := nlm largeArgs
  let h := sigma.getD 0 0
  let den_finalE :=
    ascm ⟨(img.nx, img.ny, img.nz), data⟩ ⟨(img.nx, img.ny, img.nz), den_small⟩
      ⟨(img.nx, img.ny, img.nz), den_large⟩ h
  let den_final :=
    match den_finalE with
    | .ok F => F.val
    | .error _ => fun _ _ _ => 0
  let am := img.nz / 2
  let original := fun i j => data j i am
  let final_output := fun i j => den_final j i am
  let diff0 := fun i j => |final_output i j - original i j|
  let difference := fun i j => if mask j i am then diff0 i j else 0
  ⟨mask, data, sigma, [smallArgs, largeArgs], den_small, den_large, h,
   den_final, am, original, final_output, difference, den_final, img.affine⟩

/-- The script body with the two independent denoiser calls executed in the
opposite order (large-patch first), everything else unchanged. -/
def runScriptSwapped (nlm : NlmArgs → Vol) (img : Image4) : ScriptRun :=
  let mask := mask_of img
  let data := data_of img
  let sigma := estimate_sigma img.nx img.ny img.nz data 4
  let largeArgs : NlmArgs := ⟨data, sigma, mask, 2, 1, true⟩
  let den_large := nlm largeArgs
  let smallArgs : NlmArgs := ⟨data, sigma, mask, 1, 1, true⟩
  let den_small := nlm smallArgs
  let h := sigma.getD 0 0
  let den_finalE :=
    ascm ⟨(img.nx, img.ny, img.nz), data⟩ ⟨(img.nx, img.ny, img.nz), den_small⟩
      ⟨(img.nx, img.ny, img.nz), den_large⟩ h
  let den_final :=
    match den_finalE with
    | .ok F => F.val
    | .error _ => fun _ _ _ => 0
  let am := img.nz / 2
  let original := fun i j => data j i am
  let final_output := fun i j => den_final j i am
  let diff0 := fun i j => |final_output i j - original i j|
  let difference := fun i j => if mask j i am then diff0 i j else 0
  ⟨mask, data, sigma, [largeArgs, smallArgs], den_small, den_large, h,
   den_final, am, original, final_output, difference, den_final, img.affine⟩

/-- Denoiser stub used in concrete witnesses; the theorems about the
pipeline quantify over the denoiser, the witnesses instantiate it here. -/
def nlm0 : NlmArgs → Vol := fun _ => fun _ _ _ => 0

/-- A 1×1×2 two-channel image: channel 0 puts voxel (0,0,0) inside the mask
(value 100 > 80) and voxel (0,0,1) outside it (value 0); channel 1 holds 10
at the masked voxel and 0 at the unmasked one. -/
def imgA : Image4 :=
  ⟨1, 1, 2, 2,
   fun _ _ z c =>
     if c = 0 then (if z = 0 then 100 else 0)
     else if c = 1 then (if z = 0 then 10 else 0) else 0,
   fun _ _ => 0⟩

/-- Same as `imgA` except that channel 1 is changed, at the voxel outside
the mask only, from 0 to 100. -/
def imgB : Image4 :=
  ⟨1, 1, 2, 2,
   fun _ _ z c =>
     if c = 0 then (if z = 0 then 100 else 0)
     else if c = 1 then (if z = 0 then 10 else 100) else 0,
   fun _ _ => 0⟩

/-- Same as `imgA` except that channel 0 is zero everywhere, so the mask is
empty; channel 1 is unchanged. -/
def imgD : Image4 :=
  ⟨1, 1, 2, 2,
   fun _ _ z c => if c = 1 then (if z = 0 then 10 else 0) else 0,
   fun _ _ => 0⟩

/-- Same as `imgA` on channels 0 and 1, with value 99 on all higher
channels instead of 0. -/
def imgE : Image4 :=
  ⟨1, 1, 2, 2,
   fun _ _ z c =>
     if c = 0 then (if z = 0 then 100 else 0)
     else if c = 1 then (if z = 0 then 10 else 0) else 99,
   fun _ _ => 0⟩

/-- A constant 1×1×1 volume of value 3, used as the original `O` in
fusion-engine witnesses. -/
def volO : AVol := ⟨(1, 1, 1), fun _ _ _ => 3⟩

/-- A constant 1×1×1 volume of value 7, used as both denoised inputs. -/
def volC : AVol := ⟨(1, 1, 1), fun _ _ _ => 7⟩

/-- A volume of mismatching shape 2×1×1. -/
def volS2 : AVol := ⟨(2, 1, 1), fun _ _ _ => 0⟩

/-- The fused output of `ascm volO volC volC 2`. -/
def fusedC : AVol :=
  ⟨(1, 1, 1), fun x y z =>
    ascmWeight volC volC 2 x y z * volC.val x y z +
      (1 - ascmWeight volC volC 2 x y z) * volC.val x y z⟩

/-- The sample list of a volume is determined by its in-extent samples. -/
theorem voxList_congr (nx ny nz : Nat) (v w : Vol)
    (h : ∀ x < nx, ∀ y < ny, ∀ z < nz, v x y z = w x y z) :
    voxList nx ny nz v = voxList nx ny nz w := by
  unfold voxList
  refine List.flatMap_congr fun x hx => ?_
  refine List.flatMap_congr fun y hy => ?_
  refine List.map_congr_left fun z hz => ?_
  exact h x (List.mem_range.mp hx) y (List.mem_range.mp hy) z (List.mem_range.mp hz)

/-- C1: the scalar smoothing parameter handed to the fusion call is
`sigma[0]`, the noise standard deviation the estimator returned for the
processed (single-channel) volume, in every run of the pipeline. -/
theorem fusion_h_is_estimated_sigma (nlm : NlmArgs → Vol) (img : Image4) :
    (runScript nlm img).sigma = estimate_sigma img.nx img.ny img.nz (data_of img) 4 ∧
    (runScript nlm img).fusionH = (estimate_sigma img.nx img.ny img.nz (data_of img) 4).getD 0 0 ∧
    (runScript nlm img).fusionH = sigmaVol img.nx img.ny img.nz (data_of img) 4 :=
  ⟨rfl, rfl, rfl⟩

/-- C2 counterexample: the claim that the sigma estimate is computed only
from voxels inside the mask is false.  `imgA` and `imgB` have identical
extents, identical masks, and identical processed-volume intensities at
every in-mask voxel, differing only at a voxel outside the mask, yet the
estimated sigma differs. -/
theorem sigma_mask_exclusion_fails :
    (∀ x < imgA.nx, ∀ y < imgA.ny, ∀ z < imgA.nz,
       mask_of imgA x y z = mask_of imgB x y z) ∧
    (∀ x < imgA.nx, ∀ y < imgA.ny, ∀ z < imgA.nz,
       mask_of imgA x y z = true → data_of imgA x y z = data_of imgB x y z) ∧
    imgA.nx = imgB.nx ∧ imgA.ny = imgB.ny ∧ imgA.nz = imgB.nz ∧
    (runScript nlm0 imgA).sigma ≠ (runScript nlm0 imgB).sigma := by
  have hA : (runScript nlm0 imgA).sigma = [25] := by
    show estimate_sigma imgA.nx imgA.ny imgA.nz (data_of imgA) 4 = [25]
    norm_num [estimate_sigma, sigmaVol, voxList, listMean, data_of, imgA,
      List.range_succ]
  have hB : (runScript nlm0 imgB).sigma = [2025] := by
    show estimate_sigma imgB.nx imgB.ny imgB.nz (data_of imgB) 4 = [2025]
    norm_num [estimate_sigma, sigmaVol, voxList, listMean, data_of, imgB,
      List.range_succ]
  refine ⟨by decide, by decide, rfl, rfl, rfl, ?_⟩
  rw [hA, hB]
  decide

/-- C2 (amended): the noise estimator receives the full processed volume
and no mask, so the sigma estimate depends only on the in-extent channel-1
data — it does not depend on the mask (nor on the denoiser), and voxels
outside the mask do influence it. -/
theorem sigma_mask_independent (nlm nlm' : NlmArgs → Vol) (img img' : Image4)
    (hx : img.nx = img'.nx) (hy : img.ny = img'.ny) (hz : img.nz = img'.nz)
    (hdata : ∀ x < img.nx, ∀ y < img.ny, ∀ z < img.nz,
       data_of img x y z = data_of img' x y z) :
    (runScript nlm img).sigma = (runScript nlm' img').sigma := by
  have hvox : voxList img.nx img.ny img.nz (data_of img) =
      voxList img'.nx img'.ny img'.nz (data_of img') := by
    rw [← hx, ← hy, ← hz]
    exact voxList_congr img.nx img.ny img.nz _ _ hdata
  show estimate_sigma img.nx img.ny img.nz (data_of img) 4 =
    estimate_sigma img'.nx img'.ny img'.nz (data_of img') 4
  unfold estimate_sigma sigmaVol
  rw [hvox]

/-- C2 amended-claim witness: `imgA` and `imgD` share channel 1 but have
completely different masks (full threshold hits versus an empty mask), and
the estimated sigma is nevertheless identical. -/
theorem sigma_mask_independent_witness :
    (∀ x < imgA.nx, ∀ y < imgA.ny, ∀ z < imgA.nz,
       data_of imgA x y z = data_of imgD x y z) ∧
    (runScript nlm0 imgA).sigma = (runScript nlm0 imgD).sigma :=
  ⟨by decide, sigma_mask_independent nlm0 nlm0 imgA imgD rfl rfl rfl (by decide)⟩

/-- C3: the denoiser is invoked exactly twice, on the same volume, same
sigma, same mask, same block radius 1, with Rician correction enabled in
both, differing only in the patch radius; the first invocation uses the
smaller radius (1) and produces `den_small`, the second uses the larger
radius (2) and produces `den_large`. -/
theorem nlm_invoked_twice (nlm : NlmArgs → Vol) (img : Image4) :
    (runScript nlm img).denCalls.length = 2 ∧
    (runScript nlm img).denCalls =
      [⟨data_of img, estimate_sigma img.nx img.ny img.nz (data_of img) 4,
        mask_of img, 1, 1, true⟩,
       ⟨data_of img, estimate_sigma img.nx img.ny img.nz (data_of img) 4,
        mask_of img, 2, 1, true⟩] ∧
    (1 : Nat) < 2 ∧
    (runScript nlm img).den_small =
      nlm ⟨data_of img, estimate_sigma img.nx img.ny img.nz (data_of img) 4,
        mask_of img, 1, 1, true⟩ ∧
    (runScript nlm img).den_large =
      nlm ⟨data_of img, estimate_sigma img.nx img.ny img.nz (data_of img) 4,
        mask_of img, 2, 1, true⟩ :=
  ⟨rfl, rfl, by norm_num, rfl, rfl⟩

/-- C4: the two denoiser calls are independent — running them in the
opposite order changes neither denoised volume, nor the fused output, nor
anything derived from it, for every denoiser and every input image. -/
theorem nlm_call_order_irrelevant (nlm : NlmArgs → Vol) (img : Image4) :
    (runScriptSwapped nlm img).den_small = (runScript nlm img).den_small ∧
    (runScriptSwapped nlm img).den_large = (runScript nlm img).den_large ∧
    (runScriptSwapped nlm img).den_final = (runScript nlm img).den_final ∧
    (runScriptSwapped nlm img).difference = (runScript nlm img).difference ∧
    (runScriptSwapped nlm img).savedVol = (runScript nlm img).savedVol :=
  ⟨rfl, rfl, rfl, rfl, rfl⟩

/-- C5: in the residual visualization (the middle axial slice, transposed),
the displayed difference equals the absolute difference between the fused
output and the original volume at every pixel whose voxel is inside the
mask, and equals zero at every pixel whose voxel is outside the mask. -/
theorem residual_difference_masked (nlm : NlmArgs → Vol) (img : Image4) (i j : Nat) :
    (runScript nlm img).axial_middle = img.nz / 2 ∧
    (runScript nlm img).original i j = data_of img j i (img.nz / 2) ∧
    (runScript nlm img).final_output i j =
      (runScript nlm img).den_final j i (img.nz / 2) ∧
    (runScript nlm img).difference i j =
      (if mask_of img j i (img.nz / 2)
       then |(runScript nlm img).final_output i j - (runScript nlm img).original i j|
       else 0) :=
  ⟨rfl, rfl, rfl, rfl⟩

/-- C6 counterexample: the claim that the stages run in the fixed order
ending "... visualization, then persistence" is false for the full script:
the trace contains a visualization event (the comparison figure, saved at
line 143) after the persistence event (`nib.save`, line 117), so the trace
is not monotone in the claimed stage order. -/
theorem stage_order_claim_fails :
    ¬ (List.Pairwise (fun a b => stageRank a ≤ stageRank b) scriptTrace ∧
       flowOK [] scriptTrace = true) := by
  decide

/-- C6 (amended): the script's trace is fetch/load, mask derivation, sigma
estimation, the two denoiser calls, fusion, timing/logging, visualization,
persistence — followed by one more visualization event (the comparison
figure) after persistence; up to that final event the trace is monotone in
the claimed order, and every stage runs only after all stages it consumes
data from have completed. -/
theorem stage_order_amended :
    scriptTrace =
      [.fetchLoad, .maskDerivation, .sigmaEstimation, .denoiseSmall,
       .denoiseLarge, .fusion, .timingLogging, .visualization, .persistence,
       .visualization] ∧
    List.Pairwise (fun a b => stageRank a ≤ stageRank b) (scriptTrace.take 9) ∧
    flowOK [] scriptTrace = true :=
  ⟨rfl, by decide, by decide⟩

/-- C7: the persisted volume is the fused output paired with exactly the
affine read from the input image, unchanged by denoising and fusion, in
every run of the pipeline. -/
theorem saved_affine_is_input_affine (nlm : NlmArgs → Vol) (img : Image4) :
    (runScript nlm img).savedAffine = img.affine ∧
    (runScript nlm img).savedVol = (runScript nlm img).den_final :=
  ⟨rfl, rfl⟩

/-- C8: whenever the fusion call succeeds, at every voxel where the two
denoised inputs agree the fused output equals that common value, whatever
the smoothing parameter is. -/
theorem ascm_agreement_fixedpoint (O S L : AVol) (h : ℚ) (F : AVol)
    (x y z : Nat) (hok : ascm O S L h = Except.ok F)
    (heq : S.val x y z = L.val x y z) :
    F.val x y z = S.val x y z ∧ F.val x y z = L.val x y z := by
  unfold ascm at hok
  by_cases h1 : S.shape ≠ O.shape ∨ L.shape ≠ O.shape
  · rw [if_pos h1] at hok
    exact absurd hok (by simp)
  · rw [if_neg h1] at hok
    by_cases h2 : h < 0
    · rw [if_pos h2] at hok
      exact absurd hok (by simp)
    · rw [if_neg h2] at hok
      have hF : F = ⟨O.shape, fun x y z =>
          ascmWeight S L h x y z * S.val x y z +
            (1 - ascmWeight S L h x y z) * L.val x y z⟩ :=
        (Except.ok.inj hok).symm
      subst hF
      constructor
      · show ascmWeight S L h x y z * S.val x y z +
          (1 - ascmWeight S L h x y z) * L.val x y z = S.val x y z
        rw [heq]; ring
      · show ascmWeight S L h x y z * S.val x y z +
          (1 - ascmWeight S L h x y z) * L.val x y z = L.val x y z
        rw [heq]; ring

/-- C8 witness: with both denoised inputs the constant volume of value 7
over a 1×1×1 extent and smoothing parameter 2, fusion succeeds and the
fused value at the voxel is 7. -/
theorem ascm_agreement_fixedpoint_witness :
    ascm volO volC volC 2 = Except.ok fusedC ∧
    volC.val 0 0 0 = volC.val 0 0 0 ∧
    fusedC.val 0 0 0 = volC.val 0 0 0 :=
  ⟨rfl, rfl, (ascm_agreement_fixedpoint volO volC volC 2 fusedC 0 0 0 rfl rfl).1⟩

/-- C9: the fusion engine reports a ShapeMismatch failure whenever `S` or
`L` does not match `O`'s shape, reports an InvalidParameter failure whenever
the shapes match and the smoothing parameter is negative, and any
successfully produced result certifies that the shapes matched and the
parameter was non-negative — an invalid call is never silently downgraded
to a result. -/
theorem ascm_error_reporting (O S L : AVol) (h : ℚ) :
    (S.shape ≠ O.shape ∨ L.shape ≠ O.shape →
      ascm O S L h = Except.error AscmError.ShapeMismatch) ∧
    (S.shape = O.shape → L.shape = O.shape → h < 0 →
      ascm O S L h = Except.error AscmError.InvalidParameter) ∧
    (∀ F, ascm O S L h = Except.ok F →
      S.shape = O.shape ∧ L.shape = O.shape ∧ ¬ h < 0) := by
  refine ⟨?_, ?_, ?_⟩
  · intro hmis
    unfold ascm
    rw [if_pos hmis]
  · intro hS hL hneg
    unfold ascm
    rw [if_neg (by simp [hS, hL]), if_pos hneg]
  · intro F hok
    by_cases h1 : S.shape ≠ O.shape ∨ L.shape ≠ O.shape
    · unfold ascm at hok
      rw [if_pos h1] at hok
      exact absurd hok (by simp)
    · by_cases h2 : h < 0
      · unfold ascm at hok
        rw [if_neg h1, if_pos h2] at hok
        exact absurd hok (by simp)
      · push_neg at h1
        exact ⟨h1.1, h1.2, h2⟩

/-- C9 witness: a 2×1×1 input among 1×1×1 inputs is rejected with
ShapeMismatch, and a negative smoothing parameter on matching shapes is
rejected with InvalidParameter. -/
theorem ascm_error_reporting_witness :
    ascm volO volS2 volC 1 = Except.error AscmError.ShapeMismatch ∧
    ascm volO volC volC (-1) = Except.error AscmError.InvalidParameter :=
  ⟨(ascm_error_reporting volO volS2 volC 1).1 (Or.inl (by decide)),
   (ascm_error_reporting volO volC volC (-1)).2.1 rfl rfl (by norm_num)⟩

/-- C10: the foreground mask is the strict threshold `data[..., 0] > 80` on
channel 0, the processed volume is channel 1, and channels other than 0 and
1 never influence the run: two images of the same extent and affine that
agree on channels 0 and 1 produce identical runs. -/
theorem mask_from_channel0_data_channel1 (nlm : NlmArgs → Vol)
    (img img' : Image4) (hx : img.nx = img'.nx) (hy : img.ny = img'.ny)
    (hz : img.nz = img'.nz) (haff : img.affine = img'.affine)
    (hch : ∀ a b c d, d < 2 → img.val a b c d = img'.val a b c d) :
    ((runScript nlm img).mask = fun x y z => decide (img.val x y z 0 > 80)) ∧
    ((runScript nlm img).data = fun x y z => img.val x y z 1) ∧
    runScript nlm img = runScript nlm img' := by
  have hm : mask_of img = mask_of img' := by
    funext a b c
    unfold mask_of
    rw [hch a b c 0 (by norm_num)]
  have hd : data_of img = data_of img' := by
    funext a b c
    unfold data_of
    exact hch a b c 1 (by norm_num)
  refine ⟨rfl, rfl, ?_⟩
  unfold runScript
  rw [hm, hd, hx, hy, hz, haff]

/-- C10 witness: `imgA` and `imgE` differ on every channel beyond 1 yet
produce identical runs; the mask and data of `imgA` are its thresholded
channel 0 and its channel 1. -/
theorem mask_from_channel0_data_channel1_witness :
    (∀ a b c d, d < 2 → imgA.val a b c d = imgE.val a b c d) ∧
    ((runScript nlm0 imgA).mask = fun x y z => decide (imgA.val x y z 0 > 80)) ∧
    ((runScript nlm0 imgA).data = fun x y z => imgA.val x y z 1) ∧
    runScript nlm0 imgA = runScript nlm0 imgE := by
  have hch : ∀ a b c d, d < 2 → imgA.val a b c d = imgE.val a b c d := by
    intro a b c d hd
    interval_cases d <;> rfl
  exact ⟨hch, mask_from_channel0_data_channel1 nlm0 imgA imgE rfl rfl rfl rfl hch⟩
